import Mathlib

/-!
Verification of the realtime BPM headbang core (`bpm_headbang.py`):
the `RealtimeBPMDetector` state machine, the `BLELedController`
single-slot command channel, and the `headbang_realtime` motion loop.

The detector's `_detection_loop` is embedded as a pure step function on an
explicit state record.  Per captured chunk the Python loop computes
`is_sound` from the RMS of the samples and obtains a tempo estimate from
`librosa.beat.beat_track`; both are external inputs to the loop's control
logic (microphone data and an opaque estimator), so the embedding carries
them as fields of the per-chunk input: `is_sound` is the result of the
`rms >= SILENCE_THRESHOLD` classification and `tempo` is the estimator's
result for the current analysis window (`none` models an estimator
exception, which the code swallows).
-/

namespace BpmHeadbang

/-- `RATE = 44100` (module constant). -/
def RATE : Nat := 44100

/-- `CHUNK_SIZE = 2048` (module constant). -/
def CHUNK_SIZE : Nat := 2048

/-- `BPM_LISTEN_DURATION = 5` seconds (module constant). -/
def BPM_LISTEN_DURATION : Nat := 5

/-- `BPM_HISTORY_SIZE = 5` (module constant, `deque` maxlen). -/
def BPM_HISTORY_SIZE : Nat := 5

/-- `SILENCE_DURATION = 2.0` seconds (module constant). -/
def SILENCE_DURATION : ℚ := 2

/-- `buffer_size = RATE * BPM_LISTEN_DURATION` (local of `_detection_loop`). -/
def buffer_size : Nat := RATE * BPM_LISTEN_DURATION

/-- The four detector states of `RealtimeBPMDetector`. -/
inductive DState where
  | waiting
  | listening
  | ready
  | silent
deriving DecidableEq, Repr

/-- The mutable state of `RealtimeBPMDetector` together with the locals of
`_detection_loop` (`audio_buffer`, `music_start_time`, `silence_start_time`).
Samples and times are rationals standing for the Python floats. -/
structure DetectorSt where
  state : DState
  current_bpm : Option ℚ
  bpm_history : List ℚ
  audio_buffer : List ℚ
  music_start_time : Option ℚ
  silence_start_time : Option ℚ
deriving DecidableEq, Repr

/-- One captured audio chunk as seen by the control logic of
`_detection_loop`: the samples, the sound/silence classification
(`rms >= SILENCE_THRESHOLD`), the capture timestamp (`time.time()`), and the
tempo the estimator would report on the current analysis window (`none` for
an estimator exception). -/
structure Chunk where
  samples : List ℚ
  is_sound : Bool
  time : ℚ
  tempo : Option ℚ
deriving DecidableEq, Repr

/-- `deque(maxlen=5).append`: append on the right, dropping the leftmost
element when capacity is exceeded. -/
def dequeAppend (h : List ℚ) (x : ℚ) : List ℚ :=
  let h2 := h ++ [x]
  if BPM_HISTORY_SIZE < h2.length then h2.tail else h2

/-- `np.median` on a nonempty list: sort; middle element for odd length,
mean of the two middle elements for even length (0 on the empty list, which
the code never reaches: the median is only taken right after an append). -/
def npMedian (l : List ℚ) : ℚ :=
  if l.length % 2 = 1 then
    (List.insertionSort (fun a b => a ≤ b) l).getD (l.length / 2) 0
  else
    ((List.insertionSort (fun a b => a ≤ b) l).getD (l.length / 2 - 1) 0 +
      (List.insertionSort (fun a b => a ≤ b) l).getD (l.length / 2) 0) / 2

/-- `np.median` as a partial function: `none` on the empty list, where
NumPy would return NaN. -/
def npMedianOpt (l : List ℚ) : Option ℚ :=
  if l = [] then none else some (npMedian l)

/-- `listen_elapsed = current_time - music_start_time if music_start_time
else 0`.  Python truthiness: a `music_start_time` of `None` or `0.0` yields
elapsed `0`. -/
def listenElapsed (m : Option ℚ) (t : ℚ) : ℚ :=
  match m with
  | some ms => if ms = 0 then 0 else t - ms
  | none => 0

/-- One iteration of the `while self.running` body of
`RealtimeBPMDetector._detection_loop`, acting on one captured chunk. -/
def step (s : DetectorSt) (i : Chunk) : DetectorSt :=
  match s.state with
  | .waiting =>
    if i.is_sound then
      { s with state := .listening, music_start_time := some i.time,
               audio_buffer := i.samples, silence_start_time := none }
    else s
  | .listening =>
    if i.is_sound then
      let buf := s.audio_buffer ++ i.samples
      let s1 := { s with audio_buffer := buf, silence_start_time := none }
      if (BPM_LISTEN_DURATION : ℚ) ≤ listenElapsed s.music_start_time i.time
          ∧ buffer_size ≤ buf.length then
        match i.tempo with
        | some tempo =>
          if 40 < tempo ∧ tempo < 250 then
            let hist := dequeAppend s.bpm_history tempo
            { s1 with bpm_history := hist,
                      current_bpm := some (npMedian hist), state := .ready }
          else s1
        | none => s1
      else s1
    else
      match s.silence_start_time with
      | none => { s with silence_start_time := some i.time }
      | some t0 =>
        if SILENCE_DURATION ≤ i.time - t0 then
          { s with state := .waiting, audio_buffer := [],
                   music_start_time := none, silence_start_time := none }
        else s
  | .ready =>
    if i.is_sound then
      let buf := s.audio_buffer ++ i.samples
      let buf2 := if buffer_size * 2 < buf.length
                  then buf.drop (buf.length - buffer_size) else buf
      { s with audio_buffer := buf2, silence_start_time := none }
    else
      match s.silence_start_time with
      | none => { s with silence_start_time := some i.time }
      | some t0 =>
        if SILENCE_DURATION ≤ i.time - t0 then
          { s with state := .silent, silence_start_time := none }
        else s
  | .silent =>
    if i.is_sound then
      { s with state := .listening, bpm_history := [],
               music_start_time := some i.time, audio_buffer := i.samples,
               silence_start_time := none }
    else s

/-- The detector state right after `RealtimeBPMDetector.__init__` plus the
initial locals of `_detection_loop`. -/
def initSt : DetectorSt :=
  { state := .waiting, current_bpm := none, bpm_history := [],
    audio_buffer := [], music_start_time := none, silence_start_time := none }

/-- Run the detection loop from a given state over a list of chunks. -/
def runFrom (s : DetectorSt) (trace : List Chunk) : DetectorSt :=
  trace.foldl step s

/-- Run the detection loop from the initial state over a list of chunks. -/
def run (trace : List Chunk) : DetectorSt :=
  runFrom initSt trace

/-- `RealtimeBPMDetector.get_bpm`. -/
def get_bpm (s : DetectorSt) : Option ℚ :=
  s.current_bpm

/-- `RealtimeBPMDetector.can_dance`:
`state == STATE_READY and current_bpm is not None`. -/
def can_dance (s : DetectorSt) : Bool :=
  s.state == DState.ready && s.current_bpm.isSome

/-!
`BLELedController`: the command slot.  `send` holds `_queue_lock`, clears
`_command_queue` and appends the new command; the send loop in `_ble_main`
repeatedly pops index 0 and writes it to the GATT characteristic.
-/

/-- `BLELedController.send`: under the queue lock, `clear()` then
`append(command)` — the slot holds at most the latest command. -/
def send (q : List String) (command : String) : List String :=
  let cleared := q.drop q.length
  cleared ++ [command]

/-- One poll of the send loop of `_ble_main`: pop index 0 when the queue is
nonempty; returns the command written this round (if any) and the remaining
queue. -/
def pollSlot (q : List String) : Option String × List String :=
  match q with
  | [] => (none, [])
  | c :: rest => (some c, rest)

/-- The sequence of peripheral writes the send loop performs when it drains
the queue `q` with no further `send` calls (iterating `pollSlot` until the
queue is empty). -/
def drainWrites (q : List String) : List String :=
  match q with
  | [] => []
  | c :: rest => c :: drainWrites rest

/-- The command string sent by `BLELedController.rainbow()`. -/
def rainbowCmd : String := "rainbow"

/-- The command string sent by `BLELedController.off()`. -/
def offCmd : String := "none"

/-!
`headbang_realtime`: the motion loop.  Each iteration either idles (when
`can_dance()` is false) or emits one two-phase motion cycle; after the loop
exits — normally or through `KeyboardInterrupt` — the cleanup commands run.
Angles are recorded in degrees: the code converts antenna and body angles
with the injective `np.deg2rad` just before issuing them, so distinctness
and neutrality of targets are preserved.
-/

/-- One `mini.set_target` payload: head pitch, the two antenna angles and
the body yaw, all in degrees (see module comment on `np.deg2rad`). -/
structure Target where
  head_pitch : ℚ
  antenna_l : ℚ
  antenna_r : ℚ
  body_yaw : ℚ
deriving DecidableEq, Repr

/-- An observable action of `headbang_realtime`. -/
inductive Event where
  | setTarget (t : Target)
  | led (cmd : String)
  | sleep (d : ℚ)
deriving DecidableEq, Repr

/-- The neutral pose issued by the cleanup:
`create_head_pose()` (pitch 0), antennas `[0.0, 0.0]`, `body_yaw=0.0`. -/
def neutralTarget : Target :=
  { head_pitch := 0, antenna_l := 0, antenna_r := 0, body_yaw := 0 }

/-- Phase-A target of a cycle (`head_down`, `antennas_down`,
`body_yaw_angle`): pitch 12; antennas both `+30` if `is_left` else `-30`;
body yaw `+15` if `is_left` else `-15`. -/
def downTarget (is_left : Bool) : Target :=
  if is_left then { head_pitch := 12, antenna_l := 30, antenna_r := 30, body_yaw := 15 }
  else { head_pitch := 12, antenna_l := -30, antenna_r := -30, body_yaw := -15 }

/-- Phase-B target of a cycle (`head_up`, `antennas_up`, `body_yaw_up`):
pitch `-8`; antennas and body yaw negated relative to phase A. -/
def upTarget (is_left : Bool) : Target :=
  if is_left then { head_pitch := -8, antenna_l := -30, antenna_r := -30, body_yaw := -15 }
  else { head_pitch := -8, antenna_l := 30, antenna_r := 30, body_yaw := 15 }

/-- `beat_duration = 60.0 / current_bpm`. -/
def beat_duration (bpm : ℚ) : ℚ := 60 / bpm

/-- `move_duration = beat_duration / 2.0`. -/
def move_duration (bpm : ℚ) : ℚ := beat_duration bpm / 2

/-- `is_left = (beat_count % 2 == 0)`. -/
def is_left (beat_count : Nat) : Bool := beat_count % 2 == 0

/-- What one iteration of the `while` loop observes: `none` when
`can_dance()` returned false (idle poll), `some bpm` when it returned true
and `get_bpm()` returned `bpm`. -/
def IterObs : Type := Option ℚ

/-- Events of one loop iteration, given the current `beat_count`; returns
the events and the updated `beat_count` (incremented only after a full
two-phase cycle). -/
def iterEvents (obs : IterObs) (beat_count : Nat) : List Event × Nat :=
  match obs with
  | none => ([Event.sleep (1/10)], beat_count)
  | some bpm =>
    ([Event.setTarget (downTarget (is_left beat_count)),
      Event.led rainbowCmd,
      Event.sleep (move_duration bpm),
      Event.setTarget (upTarget (is_left beat_count)),
      Event.led offCmd,
      Event.sleep (move_duration bpm)], beat_count + 1)

/-- Events and final `beat_count` of the loop over a list of iteration
observations. -/
def loopRun (l : List IterObs) (beat_count : Nat) : List Event × Nat :=
  match l with
  | [] => ([], beat_count)
  | o :: rest =>
    let r := iterEvents o beat_count
    let r2 := loopRun rest r.2
    (r.1 ++ r2.1, r2.2)

/-- The cleanup of `headbang_realtime`, run after the `try` block whether
the loop ended by duration budget or by `KeyboardInterrupt`:
`led_controller.off()`, `mini.set_target` to neutral, `time.sleep(1)`. -/
def cleanupEvents : List Event :=
  [Event.led offCmd, Event.setTarget neutralTarget, Event.sleep 1]

/-- The loop-body part of the trace: the full loop events, truncated at an
arbitrary point when a `KeyboardInterrupt` arrives (`cut = some k` keeps the
first `k` events; the interrupt is raised at a blocking call, so the events
already issued stay issued). -/
def loopPart (l : List IterObs) (cut : Option Nat) : List Event :=
  match cut with
  | none => (loopRun l 0).1
  | some k => ((loopRun l 0).1).take k

/-- The whole event trace of `headbang_realtime`: the (possibly
interrupted) loop body followed by the cleanup. -/
def headbangTrace (l : List IterObs) (cut : Option Nat) : List Event :=
  loopPart l cut ++ cleanupEvents

/-!  Predicates naming the two guarded transitions of the state machine. -/

/-- The chunk produces an accepted tempo estimate from state `s`: sound,
minimum listening time elapsed, enough accumulated samples (the gate is
checked on the buffer after the extend), and the estimator returned a value
in the open interval `(40, 250)`. -/
def acceptsTempo (s : DetectorSt) (i : Chunk) : Prop :=
  i.is_sound = true ∧
  (BPM_LISTEN_DURATION : ℚ) ≤ listenElapsed s.music_start_time i.time ∧
  buffer_size ≤ (s.audio_buffer ++ i.samples).length ∧
  ∃ t, i.tempo = some t ∧ 40 < t ∧ t < 250

/-- The chunk is silent and at least `SILENCE_DURATION` of contiguous
silence has elapsed: the silence timer was started by an earlier silent
chunk (it is reset to `None` on every sound chunk, so a running timer
witnesses contiguous silence) and the current chunk is at least
`SILENCE_DURATION` past it. -/
def silenceTimedOut (s : DetectorSt) (i : Chunk) : Prop :=
  i.is_sound = false ∧
  ∃ t0, s.silence_start_time = some t0 ∧ SILENCE_DURATION ≤ i.time - t0

/-- Invariant tying the tempo history to the published BPM: the history
respects its capacity, holds only in-range estimates, the published BPM is
the median of the history whenever the history is nonempty, and any
published BPM is itself in range. -/
def histInv (s : DetectorSt) : Prop :=
  s.bpm_history.length ≤ BPM_HISTORY_SIZE ∧
  (∀ x ∈ s.bpm_history, 40 < x ∧ x < 250) ∧
  (s.bpm_history ≠ [] → s.current_bpm = some (npMedian s.bpm_history)) ∧
  (∀ v, s.current_bpm = some v → 40 < v ∧ v < 250)

/-!  Concrete chunks, states and traces used by witnesses and
counterexamples. -/

/-- A loud chunk carrying a full analysis window of samples at `t = 1`. -/
def seedChunk : Chunk :=
  { samples := List.replicate buffer_size 0, is_sound := true, time := 1,
    tempo := none }

/-- A loud chunk at `t = 6` (so 5 s after `seedChunk`) on which the
estimator reports 120 BPM. -/
def acceptChunk : Chunk :=
  { samples := [], is_sound := true, time := 6, tempo := some 120 }

/-- A silent chunk at `t = 7`. -/
def silenceChunk1 : Chunk :=
  { samples := [], is_sound := false, time := 7, tempo := none }

/-- A silent chunk at `t = 9`, two seconds after `silenceChunk1`. -/
def silenceChunk2 : Chunk :=
  { samples := [], is_sound := false, time := 9, tempo := none }

/-- A loud chunk at `t = 10`, restarting music after silence. -/
def soundChunk2 : Chunk :=
  { samples := [2], is_sound := true, time := 10, tempo := none }

/-- The state after `seedChunk`: listening with a full analysis window. -/
def bigListenSt : DetectorSt :=
  { state := .listening, current_bpm := none, bpm_history := [],
    audio_buffer := List.replicate buffer_size 0, music_start_time := some 1,
    silence_start_time := none }

/-- The state after `seedChunk` then `acceptChunk`: ready at 120 BPM. -/
def readySt : DetectorSt :=
  { state := .ready, current_bpm := some 120, bpm_history := [120],
    audio_buffer := List.replicate buffer_size 0, music_start_time := some 1,
    silence_start_time := none }

/-- `readySt` after the two silent chunks: the detector has gone Silent. -/
def silentSt : DetectorSt :=
  { state := .silent, current_bpm := some 120, bpm_history := [120],
    audio_buffer := List.replicate buffer_size 0, music_start_time := some 1,
    silence_start_time := none }

/-- `silentSt` after `soundChunk2`: listening again, history cleared, but
the previously published BPM still in place. -/
def staleSt : DetectorSt :=
  { state := .listening, current_bpm := some 120, bpm_history := [],
    audio_buffer := [2], music_start_time := some 10,
    silence_start_time := none }

/-- Trace driving the detector from start to `readySt`. -/
def pairTrace : List Chunk := [seedChunk, acceptChunk]

/-- Trace driving the detector to `staleSt`: music, tempo accepted, two
seconds of silence, then music again. -/
def ceTrace : List Chunk :=
  [seedChunk, acceptChunk, silenceChunk1, silenceChunk2, soundChunk2]

/-- A listening state whose silence timer has been running since `t = 3`,
with a nonempty history carried over from an earlier run. -/
def lisTimerSt : DetectorSt :=
  { state := .listening, current_bpm := some 120, bpm_history := [120],
    audio_buffer := [1], music_start_time := some 1,
    silence_start_time := some 3 }

/-- A ready state whose silence timer has been running since `t = 3`. -/
def readyTimerSt : DetectorSt :=
  { state := .ready, current_bpm := some 120, bpm_history := [120],
    audio_buffer := [1], music_start_time := some 1,
    silence_start_time := some 3 }

/-- A silent chunk at `t = 5`, two seconds past a timer started at 3. -/
def silTimeoutChunk : Chunk :=
  { samples := [], is_sound := false, time := 5, tempo := none }

/-- An ordinary loud chunk of one sample. -/
def sndChunk : Chunk :=
  { samples := [3], is_sound := true, time := 2, tempo := none }

/-- One loud `CHUNK_SIZE`-sample chunk at `t = 1` (first chunk of the
overflow trace). -/
def smallSeedChunk : Chunk :=
  { samples := List.replicate CHUNK_SIZE 0, is_sound := true, time := 1,
    tempo := none }

/-- A loud `CHUNK_SIZE`-sample chunk at `t = 6` on which the estimator
keeps reporting the rejected boundary tempo 40. -/
def growChunk : Chunk :=
  { samples := List.replicate CHUNK_SIZE 0, is_sound := true, time := 6,
    tempo := some 40 }

/-- 217 chunks of continuous sound whose tempo estimates are all rejected:
the accumulation buffer grows past every bound while Listening. -/
def overflowTrace : List Chunk :=
  smallSeedChunk :: List.replicate 216 growChunk

/-- A ready state whose buffer already fills the whole bound, so that the
next sound chunk overflows it and triggers the truncation. -/
def hugeReadySt : DetectorSt :=
  { state := .ready, current_bpm := some 120, bpm_history := [120],
    audio_buffer := List.replicate (buffer_size * 2) 0,
    music_start_time := some 1, silence_start_time := none }

/-!  Branch lemmas for `step`, one per control path of `_detection_loop`. -/

/-- Waiting, sound: enter Listening, start the music timer, seed the buffer. -/
theorem step_waiting_sound (s : DetectorSt) (i : Chunk)
    (hs : s.state = .waiting) (hi : i.is_sound = true) :
    step s i = { s with state := .listening, music_start_time := some i.time,
                        audio_buffer := i.samples, silence_start_time := none } := by
  unfold step
  rw [hs]
  simp [hi]

/-- Waiting, silence: nothing changes. -/
theorem step_waiting_silent (s : DetectorSt) (i : Chunk)
    (hs : s.state = .waiting) (hi : i.is_sound = false) :
    step s i = s := by
  unfold step
  rw [hs]
  simp [hi]

/-- Silent, sound: enter Listening, clear the history, restart the music
timer, seed the buffer. -/
theorem step_silent_sound (s : DetectorSt) (i : Chunk)
    (hs : s.state = .silent) (hi : i.is_sound = true) :
    step s i = { s with state := .listening, bpm_history := [],
                        music_start_time := some i.time, audio_buffer := i.samples,
                        silence_start_time := none } := by
  unfold step
  rw [hs]
  simp [hi]

/-- Silent, silence: nothing changes. -/
theorem step_silent_silent (s : DetectorSt) (i : Chunk)
    (hs : s.state = .silent) (hi : i.is_sound = false) :
    step s i = s := by
  unfold step
  rw [hs]
  simp [hi]

/-- Listening, sound, estimation gate closed (not enough listening time or
samples): just extend the buffer and reset the silence timer. -/
theorem step_listening_sound_gated (s : DetectorSt) (i : Chunk)
    (hs : s.state = .listening) (hi : i.is_sound = true)
    (hg : ¬((BPM_LISTEN_DURATION : ℚ) ≤ listenElapsed s.music_start_time i.time
            ∧ buffer_size ≤ (s.audio_buffer ++ i.samples).length)) :
    step s i = { s with audio_buffer := s.audio_buffer ++ i.samples,
                        silence_start_time := none } := by
  unfold step
  rw [hs]
  simp only [hi, if_true]
  rw [if_neg hg]

/-- Listening, sound, gate open but the estimator raised: buffer extended,
state unchanged. -/
theorem step_listening_sound_err (s : DetectorSt) (i : Chunk)
    (hs : s.state = .listening) (hi : i.is_sound = true)
    (ht : i.tempo = none) :
    step s i = { s with audio_buffer := s.audio_buffer ++ i.samples,
                        silence_start_time := none } := by
  unfold step
  rw [hs]
  simp only [hi, if_true, ht]
  split <;> rfl

/-- Listening, sound, gate open, estimate out of the open interval
`(40, 250)`: discarded, buffer extended, state stays Listening. -/
theorem step_listening_sound_reject (s : DetectorSt) (i : Chunk) (t : ℚ)
    (hs : s.state = .listening) (hi : i.is_sound = true)
    (ht : i.tempo = some t) (hr : ¬(40 < t ∧ t < 250)) :
    step s i = { s with audio_buffer := s.audio_buffer ++ i.samples,
                        silence_start_time := none } := by
  unfold step
  rw [hs]
  simp only [hi, if_true, ht]
  split <;> simp [hr]

/-- Listening, sound, gate open, estimate accepted: push to the history,
publish the median, enter Ready. -/
theorem step_listening_sound_accept (s : DetectorSt) (i : Chunk) (t : ℚ)
    (hs : s.state = .listening) (hi : i.is_sound = true)
    (hg : (BPM_LISTEN_DURATION : ℚ) ≤ listenElapsed s.music_start_time i.time
          ∧ buffer_size ≤ (s.audio_buffer ++ i.samples).length)
    (ht : i.tempo = some t) (hr : 40 < t ∧ t < 250) :
    step s i = { s with state := .ready,
                        bpm_history := dequeAppend s.bpm_history t,
                        current_bpm := some (npMedian (dequeAppend s.bpm_history t)),
                        audio_buffer := s.audio_buffer ++ i.samples,
                        silence_start_time := none } := by
  unfold step
  rw [hs]
  simp only [hi, if_true, ht, if_pos hg, if_pos hr]

/-- Listening, silence, timer not yet running: start it. -/
theorem step_listening_silent_start (s : DetectorSt) (i : Chunk)
    (hs : s.state = .listening) (hi : i.is_sound = false)
    (h0 : s.silence_start_time = none) :
    step s i = { s with silence_start_time := some i.time } := by
  unfold step
  rw [hs]
  simp [hi, h0]

/-- Listening, silence, timer running but below `SILENCE_DURATION`:
nothing changes. -/
theorem step_listening_silent_short (s : DetectorSt) (i : Chunk) (t0 : ℚ)
    (hs : s.state = .listening) (hi : i.is_sound = false)
    (h0 : s.silence_start_time = some t0) (hd : ¬SILENCE_DURATION ≤ i.time - t0) :
    step s i = s := by
  unfold step
  rw [hs]
  simp [hi, h0, hd]

/-- Listening, silence past `SILENCE_DURATION`: back to Waiting; buffer and
both timers cleared, history untouched. -/
theorem step_listening_silent_timeout (s : DetectorSt) (i : Chunk) (t0 : ℚ)
    (hs : s.state = .listening) (hi : i.is_sound = false)
    (h0 : s.silence_start_time = some t0) (hd : SILENCE_DURATION ≤ i.time - t0) :
    step s i = { s with state := .waiting, audio_buffer := [],
                        music_start_time := none, silence_start_time := none } := by
  unfold step
  rw [hs]
  simp [hi, h0, hd]

/-- Ready, sound: extend the buffer, truncating to the last `buffer_size`
samples when it exceeds `buffer_size * 2`; reset the silence timer. -/
theorem step_ready_sound (s : DetectorSt) (i : Chunk)
    (hs : s.state = .ready) (hi : i.is_sound = true) :
    step s i = { s with
      audio_buffer :=
        if buffer_size * 2 < (s.audio_buffer ++ i.samples).length
        then (s.audio_buffer ++ i.samples).drop
               ((s.audio_buffer ++ i.samples).length - buffer_size)
        else s.audio_buffer ++ i.samples,
      silence_start_time := none } := by
  unfold step
  rw [hs]
  simp [hi]

/-- Ready, silence, timer not yet running: start it. -/
theorem step_ready_silent_start (s : DetectorSt) (i : Chunk)
    (hs : s.state = .ready) (hi : i.is_sound = false)
    (h0 : s.silence_start_time = none) :
    step s i = { s with silence_start_time := some i.time } := by
  unfold step
  rw [hs]
  simp [hi, h0]

/-- Ready, silence, timer below `SILENCE_DURATION`: nothing changes. -/
theorem step_ready_silent_short (s : DetectorSt) (i : Chunk) (t0 : ℚ)
    (hs : s.state = .ready) (hi : i.is_sound = false)
    (h0 : s.silence_start_time = some t0) (hd : ¬SILENCE_DURATION ≤ i.time - t0) :
    step s i = s := by
  unfold step
  rw [hs]
  simp [hi, h0, hd]

/-- Ready, silence past `SILENCE_DURATION`: enter Silent, clear the silence
timer; buffer, history and published bpm untouched. -/
theorem step_ready_silent_timeout (s : DetectorSt) (i : Chunk) (t0 : ℚ)
    (hs : s.state = .ready) (hi : i.is_sound = false)
    (h0 : s.silence_start_time = some t0) (hd : SILENCE_DURATION ≤ i.time - t0) :
    step s i = { s with state := .silent, silence_start_time := none } := by
  unfold step
  rw [hs]
  simp [hi, h0, hd]

/-!  Evaluation of the concrete traces. -/

theorem npMedian_single : npMedian [120] = 120 := by decide

theorem step_seed_eq : step initSt seedChunk = bigListenSt := by
  rw [step_waiting_sound initSt seedChunk rfl rfl]
  rfl

theorem step_big_accept_eq : step bigListenSt acceptChunk = readySt := by
  have hg : (BPM_LISTEN_DURATION : ℚ) ≤
        listenElapsed bigListenSt.music_start_time acceptChunk.time ∧
      buffer_size ≤ (bigListenSt.audio_buffer ++ acceptChunk.samples).length := by
    constructor
    · norm_num [listenElapsed, bigListenSt, acceptChunk, BPM_LISTEN_DURATION]
    · simp [bigListenSt, acceptChunk]
  have hr : (40 : ℚ) < 120 ∧ (120 : ℚ) < 250 := by norm_num
  rw [step_listening_sound_accept bigListenSt acceptChunk 120 rfl rfl hg rfl hr]
  simp [bigListenSt, readySt, acceptChunk, dequeAppend, BPM_HISTORY_SIZE,
    npMedian_single]

theorem run_pair_eq : run pairTrace = readySt := by
  rw [run, runFrom, pairTrace, List.foldl_cons, List.foldl_cons, List.foldl_nil,
    step_seed_eq, step_big_accept_eq]

theorem run_ce_eq : run ceTrace = staleSt := by
  rw [run, runFrom, ceTrace, List.foldl_cons, List.foldl_cons, List.foldl_cons,
    List.foldl_cons, List.foldl_cons, List.foldl_nil]
  rw [step_seed_eq, step_big_accept_eq]
  rw [step_ready_silent_start readySt silenceChunk1 rfl rfl rfl]
  rw [step_ready_silent_timeout _ silenceChunk2 7 rfl rfl rfl
    (by norm_num [SILENCE_DURATION, silenceChunk2])]
  rw [step_silent_sound _ soundChunk2 rfl rfl]
  rfl

/-- C1: from every state, one chunk moves the detector only along the
edges of the §4.1 table.  Waiting goes to Listening exactly on sound;
Listening reaches Ready exactly when a valid tempo estimate is accepted and
falls back to Waiting exactly after at least `SILENCE_DURATION` of
contiguous silence, otherwise staying; Ready reaches Silent exactly on the
silence timeout and otherwise stays; Silent goes to Listening exactly on
sound.  No other transition occurs. -/
theorem claim_C1 (s : DetectorSt) (i : Chunk) :
    (s.state = .waiting →
      (step s i).state = (if i.is_sound then DState.listening else DState.waiting)) ∧
    (s.state = .listening →
      ((step s i).state = .ready ∨ (step s i).state = .waiting ∨
        (step s i).state = .listening) ∧
      ((step s i).state = .ready ↔ acceptsTempo s i) ∧
      ((step s i).state = .waiting ↔ silenceTimedOut s i)) ∧
    (s.state = .ready →
      ((step s i).state = .silent ∨ (step s i).state = .ready) ∧
      ((step s i).state = .silent ↔ silenceTimedOut s i)) ∧
    (s.state = .silent →
      (step s i).state = (if i.is_sound then DState.listening else DState.silent)) := by
  refine ⟨?_, ?_, ?_, ?_⟩
  · intro hs
    cases hi : i.is_sound
    · rw [step_waiting_silent s i hs hi, hs]
      simp
    · rw [step_waiting_sound s i hs hi]
      simp
  · intro hs
    cases hi : i.is_sound
    · rcases h0 : s.silence_start_time with _ | t0
      · rw [step_listening_silent_start s i hs hi h0]
        simp [hs, hi, h0, acceptsTempo, silenceTimedOut]
      · by_cases hd : SILENCE_DURATION ≤ i.time - t0
        · rw [step_listening_silent_timeout s i t0 hs hi h0 hd]
          simp [hi, h0, hd, acceptsTempo, silenceTimedOut]
        · rw [step_listening_silent_short s i t0 hs hi h0 hd]
          simp [hs, hi, h0, hd, acceptsTempo, silenceTimedOut]
    · rcases ht : i.tempo with _ | t
      · rw [step_listening_sound_err s i hs hi ht]
        simp [hs, hi, ht, acceptsTempo, silenceTimedOut]
      · by_cases hr : 40 < t ∧ t < 250
        · by_cases hg : (BPM_LISTEN_DURATION : ℚ) ≤
              listenElapsed s.music_start_time i.time ∧
              buffer_size ≤ (s.audio_buffer ++ i.samples).length
          · rw [step_listening_sound_accept s i t hs hi hg ht hr]
            simp [hi, ht, hg, hr, acceptsTempo, silenceTimedOut]
            simpa using hg.2
          · rw [step_listening_sound_gated s i hs hi hg]
            refine ⟨Or.inr (Or.inr (by simp [hs])), ?_, ?_⟩
            · constructor
              · intro h
                simp [hs] at h
              · rintro ⟨-, hA, hB, -⟩
                exact absurd ⟨hA, hB⟩ hg
            · constructor
              · intro h
                simp [hs] at h
              · rintro ⟨hfalse, -⟩
                simp [hi] at hfalse
        · rw [step_listening_sound_reject s i t hs hi ht hr]
          simp [hs, hi, ht, hr, acceptsTempo, silenceTimedOut]
  · intro hs
    cases hi : i.is_sound
    · rcases h0 : s.silence_start_time with _ | t0
      · rw [step_ready_silent_start s i hs hi h0]
        simp [hs, hi, h0, silenceTimedOut]
      · by_cases hd : SILENCE_DURATION ≤ i.time - t0
        · rw [step_ready_silent_timeout s i t0 hs hi h0 hd]
          simp [hi, h0, hd, silenceTimedOut]
        · rw [step_ready_silent_short s i t0 hs hi h0 hd]
          simp [hs, hi, h0, hd, silenceTimedOut]
    · rw [step_ready_sound s i hs hi]
      simp [hs, hi, silenceTimedOut]
  · intro hs
    cases hi : i.is_sound
    · rw [step_silent_silent s i hs hi, hs]
      simp
    · rw [step_silent_sound s i hs hi]
      simp

/-- Witness for C1: each edge of the table exercised at a concrete state
and chunk — Waiting to Listening on sound, Listening to Ready on an
accepted estimate, Listening back to Waiting and Ready to Silent on the
silence timeout, Silent to Listening on sound. -/
theorem claim_C1_witness :
    (step initSt sndChunk).state = .listening ∧
    (step bigListenSt acceptChunk).state = .ready ∧
    (step lisTimerSt silTimeoutChunk).state = .waiting ∧
    (step readyTimerSt silTimeoutChunk).state = .silent ∧
    (step silentSt sndChunk).state = .listening := by
  refine ⟨?_, ?_, ?_, ?_, ?_⟩
  · have h := (claim_C1 initSt sndChunk).1 rfl
    simpa using h
  · exact ((claim_C1 bigListenSt acceptChunk).2.1 rfl).2.1.mpr
      ⟨rfl, by norm_num [listenElapsed, bigListenSt, acceptChunk, BPM_LISTEN_DURATION],
       by simp [bigListenSt, acceptChunk],
       120, rfl, by norm_num, by norm_num⟩
  · exact ((claim_C1 lisTimerSt silTimeoutChunk).2.1 rfl).2.2.mpr
      ⟨rfl, 3, rfl, by norm_num [SILENCE_DURATION, silTimeoutChunk, lisTimerSt]⟩
  · exact ((claim_C1 readyTimerSt silTimeoutChunk).2.2.1 rfl).2.mpr
      ⟨rfl, 3, rfl, by norm_num [SILENCE_DURATION, silTimeoutChunk, readyTimerSt]⟩
  · have h := (claim_C1 silentSt sndChunk).2.2.2 rfl
    simpa using h

/-- C3: the Silent-to-Listening transition clears the tempo history, while
the Listening-to-Waiting transition leaves the history unchanged and clears
only the accumulation buffer and the music/silence timers. -/
theorem claim_C3 (s : DetectorSt) (i : Chunk) :
    (s.state = .silent → i.is_sound = true →
      (step s i).state = .listening ∧ (step s i).bpm_history = []) ∧
    (s.state = .listening → i.is_sound = false → (step s i).state = .waiting →
      (step s i).bpm_history = s.bpm_history ∧
      (step s i).audio_buffer = [] ∧
      (step s i).music_start_time = none ∧
      (step s i).silence_start_time = none) := by
  constructor
  · intro hs hi
    rw [step_silent_sound s i hs hi]
    exact ⟨rfl, rfl⟩
  · intro hs hi hw
    rcases h0 : s.silence_start_time with _ | t0
    · rw [step_listening_silent_start s i hs hi h0] at hw
      simp [hs] at hw
    · by_cases hd : SILENCE_DURATION ≤ i.time - t0
      · rw [step_listening_silent_timeout s i t0 hs hi h0 hd]
        exact ⟨rfl, rfl, rfl, rfl⟩
      · rw [step_listening_silent_short s i t0 hs hi h0 hd] at hw
        rw [hs] at hw
        cases hw

/-- Witness for C3: the Silent-to-Listening edge at a concrete state
empties the history; the Listening-to-Waiting edge at a concrete state
keeps the nonempty history `[120]` while emptying the buffer. -/
theorem claim_C3_witness :
    ((step silentSt sndChunk).bpm_history = [] ∧
      silentSt.bpm_history = [120]) ∧
    ((step lisTimerSt silTimeoutChunk).bpm_history = [120] ∧
      (step lisTimerSt silTimeoutChunk).audio_buffer = []) := by
  have hw : (step lisTimerSt silTimeoutChunk).state = .waiting := by
    rw [step_listening_silent_timeout lisTimerSt silTimeoutChunk 3 rfl rfl rfl
      (by norm_num [SILENCE_DURATION, silTimeoutChunk])]
  have h2 := (claim_C3 lisTimerSt silTimeoutChunk).2 rfl rfl hw
  exact ⟨⟨((claim_C3 silentSt sndChunk).1 rfl rfl).2, rfl⟩, ⟨h2.1, h2.2.1⟩⟩

/-- C5: once the estimation gate is open and the estimator reports `t`, the
estimate is accepted exactly when `40 < t < 250`; an out-of-range estimate
(in particular exactly 40 or exactly 250) is discarded without touching the
history or the published BPM, and the detector stays in Listening. -/
theorem claim_C5 (s : DetectorSt) (i : Chunk) (t : ℚ)
    (hs : s.state = .listening) (hi : i.is_sound = true)
    (hg : (BPM_LISTEN_DURATION : ℚ) ≤ listenElapsed s.music_start_time i.time
          ∧ buffer_size ≤ (s.audio_buffer ++ i.samples).length)
    (ht : i.tempo = some t) :
    ((step s i).state = .ready ↔ (40 < t ∧ t < 250)) ∧
    (t ≤ 40 ∨ 250 ≤ t →
      (step s i).state = .listening ∧
      (step s i).bpm_history = s.bpm_history ∧
      (step s i).current_bpm = s.current_bpm) := by
  by_cases hr : 40 < t ∧ t < 250
  · rw [step_listening_sound_accept s i t hs hi hg ht hr]
    constructor
    · simpa using hr
    · intro hout
      rcases hout with h | h
      · exact absurd hr (fun hc => absurd h (not_le.mpr hc.1))
      · exact absurd hr (fun hc => absurd h (not_le.mpr hc.2))
  · rw [step_listening_sound_reject s i t hs hi ht hr]
    refine ⟨?_, fun h => ⟨by simp [hs], rfl, rfl⟩⟩
    constructor
    · intro h
      simp [hs] at h
    · intro h
      exact absurd h hr

/-- Witness for C5: from a listening state holding a full analysis window,
an estimate of exactly 40 is rejected (state stays Listening, history and
published BPM untouched) and an estimate of 120 is accepted. -/
theorem claim_C5_witness :
    ((step bigListenSt growChunk).state = .listening ∧
      (step bigListenSt growChunk).bpm_history = [] ∧
      (step bigListenSt growChunk).current_bpm = none) ∧
    (step bigListenSt acceptChunk).state = .ready := by
  have hgate1 : (BPM_LISTEN_DURATION : ℚ) ≤
        listenElapsed bigListenSt.music_start_time growChunk.time ∧
      buffer_size ≤ (bigListenSt.audio_buffer ++ growChunk.samples).length := by
    constructor
    · norm_num [listenElapsed, bigListenSt, growChunk, BPM_LISTEN_DURATION]
    · simp [bigListenSt, growChunk]
  have hgate2 : (BPM_LISTEN_DURATION : ℚ) ≤
        listenElapsed bigListenSt.music_start_time acceptChunk.time ∧
      buffer_size ≤ (bigListenSt.audio_buffer ++ acceptChunk.samples).length := by
    constructor
    · norm_num [listenElapsed, bigListenSt, acceptChunk, BPM_LISTEN_DURATION]
    · simp [bigListenSt, acceptChunk]
  have h1 := (claim_C5 bigListenSt growChunk 40 rfl rfl hgate1 rfl).2
    (Or.inl le_rfl)
  have h2 := (claim_C5 bigListenSt acceptChunk 120 rfl rfl hgate2 rfl).1.mpr
    (by norm_num)
  exact ⟨h1, h2⟩

/-- C6: a `send a` followed by a `send b` before the send loop drains
leaves exactly the single pending command `b`; draining then performs
exactly one peripheral write, with payload `b`, and `a` (when distinct from
`b`) is never written. -/
theorem claim_C6 (q : List String) (a b : String) :
    send (send q a) b = [b] ∧
    drainWrites (send (send q a) b) = [b] ∧
    (a ≠ b → a ∉ drainWrites (send (send q a) b)) := by
  have h1 : send (send q a) b = [b] := by
    simp [send]
  refine ⟨h1, ?_, ?_⟩
  · rw [h1]
    rfl
  · intro hab
    rw [h1]
    simp [drainWrites, hab]

/-- Witness for C6: sending `"rainbow"` then `"none"` on a queue that
already held a command leaves exactly `["none"]`, whose drain writes only
`"none"` and never `"rainbow"`. -/
theorem claim_C6_witness :
    send (send [rainbowCmd] rainbowCmd) offCmd = [offCmd] ∧
    drainWrites (send (send [rainbowCmd] rainbowCmd) offCmd) = [offCmd] ∧
    rainbowCmd ∉ drainWrites (send (send [rainbowCmd] rainbowCmd) offCmd) := by
  have h := claim_C6 [rainbowCmd] rainbowCmd offCmd
  exact ⟨h.1, h.2.1, h.2.2 (by decide)⟩

/-- No event of the dance loop body is the neutral-pose actuator command:
the loop only issues the pitch-12 down poses and pitch-(-8) up poses. -/
theorem loopRun_no_neutral (l : List IterObs) (n : Nat) :
    Event.setTarget neutralTarget ∉ (loopRun l n).1 := by
  induction l generalizing n with
  | nil =>
    simp [loopRun]
  | cons o rest ih =>
    simp only [loopRun, List.mem_append]
    rintro (h | h)
    · rcases o with _ | bpm
      · simp [iterEvents] at h
      · simp only [iterEvents, List.mem_cons, List.not_mem_nil] at h
        rcases h with h | h | h | h | h | h | h
        · cases hl : is_left n <;>
            simp [hl, downTarget, neutralTarget] at h
        · cases h
        · cases h
        · cases hl : is_left n <;>
            simp [hl, upTarget, neutralTarget] at h
        · cases h
        · cases h
        · cases h
    · exact ih _ h

/-- C7: however the motion loop exits — the observation list exhausted
(duration budget) or the body truncated at any point by an interruption —
the trace ends with the cleanup block, which issues exactly one neutral
actuator command and exactly one peripheral off command; the neutral
command occurs nowhere else in the trace. -/
theorem claim_C7 (l : List IterObs) (cut : Option Nat) :
    headbangTrace l cut = loopPart l cut ++ cleanupEvents ∧
    Event.setTarget neutralTarget ∉ loopPart l cut ∧
    (headbangTrace l cut).count (Event.setTarget neutralTarget) = 1 ∧
    (headbangTrace l cut).drop ((headbangTrace l cut).length - 3) =
      cleanupEvents ∧
    cleanupEvents.count (Event.led offCmd) = 1 ∧
    cleanupEvents.count (Event.setTarget neutralTarget) = 1 := by
  have hnin : Event.setTarget neutralTarget ∉ loopPart l cut := by
    rcases cut with _ | k
    · exact loopRun_no_neutral l 0
    · intro h
      exact loopRun_no_neutral l 0 (List.take_subset k _ h)
  refine ⟨rfl, hnin, ?_, ?_, by decide, by decide⟩
  · rw [headbangTrace, List.count_append, List.count_eq_zero.mpr hnin]
    decide
  · rw [headbangTrace, List.length_append]
    have h3 : cleanupEvents.length = 3 := rfl
    rw [h3, Nat.add_sub_cancel, List.drop_left]

/-- C8: for every accepted BPM `b` the half-beat sleep is `30/b`, and the
beat counter drives a strict left/right alternation: the left phase is
chosen exactly on even counts, the parity flips every full cycle, and each
dancing iteration advances the counter by exactly one. -/
theorem claim_C8 (b : ℚ) (n : Nat) (hb : 40 < b ∧ b < 250) :
    move_duration b = 30 / b ∧
    (is_left n = true ↔ n % 2 = 0) ∧
    is_left (n + 1) = !is_left n ∧
    (iterEvents (some b) n).2 = n + 1 ∧
    (iterEvents (some b) n).1 =
      [Event.setTarget (downTarget (is_left n)),
       Event.led rainbowCmd, Event.sleep (30 / b),
       Event.setTarget (upTarget (is_left n)),
       Event.led offCmd, Event.sleep (30 / b)] := by
  have hb0 : b ≠ 0 := by
    have : (0 : ℚ) < b := lt_trans (by norm_num) hb.1
    exact ne_of_gt this
  have hmd : move_duration b = 30 / b := by
    rw [move_duration, beat_duration, div_div]
    rw [show (60 : ℚ) = 30 * 2 by norm_num, show b * 2 = 2 * b by ring,
      show (30 : ℚ) * 2 = 2 * 30 by ring, mul_div_mul_left 30 b (by norm_num)]
  refine ⟨hmd, ?_, ?_, rfl, ?_⟩
  · simp [is_left]
  · rcases Nat.mod_two_eq_zero_or_one n with h | h
    · have h1 : (n + 1) % 2 = 1 := by omega
      simp [is_left, h, h1]
    · have h1 : (n + 1) % 2 = 0 := by omega
      simp [is_left, h, h1]
  · rw [iterEvents, hmd]

/-- Witness for C8 at `b = 120`, `n = 0`: the half-beat is `1/4` second
and the first cycle is the left phase. -/
theorem claim_C8_witness :
    move_duration 120 = 30 / 120 ∧
    (is_left 0 = true ↔ 0 % 2 = 0) ∧
    is_left 1 = !is_left 0 ∧
    (iterEvents (some 120) 0).2 = 1 := by
  have h := claim_C8 120 0 (by norm_num)
  exact ⟨h.1, h.2.1, h.2.2.1, h.2.2.2.1⟩

/-!  Lemmas on the tempo history and its median. -/

theorem getD_mem_of_lt (l : List ℚ) (i : Nat) (h : i < l.length) :
    l.getD i 0 ∈ l := by
  rw [List.getD_eq_getElem l 0 h]
  exact List.getElem_mem h

/-- The NumPy median of a nonempty list of values in the open interval
`(40, 250)` lies in that interval. -/
theorem npMedian_mem_range {l : List ℚ} (hne : l ≠ [])
    (hall : ∀ x ∈ l, 40 < x ∧ x < 250) :
    40 < npMedian l ∧ npMedian l < 250 := by
  have hperm := List.perm_insertionSort (fun a b : ℚ => a ≤ b) l
  have hlen : (List.insertionSort (fun a b : ℚ => a ≤ b) l).length = l.length :=
    hperm.length_eq
  have hallS : ∀ x ∈ List.insertionSort (fun a b : ℚ => a ≤ b) l,
      40 < x ∧ x < 250 := fun x hx => hall x (hperm.mem_iff.mp hx)
  have hpos : 0 < l.length := List.length_pos.mpr hne
  have hi2 : l.length / 2 < (List.insertionSort (fun a b : ℚ => a ≤ b) l).length := by
    rw [hlen]
    exact Nat.div_lt_self hpos (by norm_num)
  have hi1 : l.length / 2 - 1 < (List.insertionSort (fun a b : ℚ => a ≤ b) l).length := by
    rw [hlen]
    have := Nat.div_lt_self hpos (show 1 < 2 by norm_num)
    omega
  rw [npMedian]
  by_cases hodd : l.length % 2 = 1
  · rw [if_pos hodd]
    exact hallS _ (getD_mem_of_lt _ _ hi2)
  · rw [if_neg hodd]
    obtain ⟨ha1, ha2⟩ := hallS _ (getD_mem_of_lt _ _ hi1)
    obtain ⟨hb1, hb2⟩ := hallS _ (getD_mem_of_lt _ _ hi2)
    constructor <;> [linarith; linarith]

theorem dequeAppend_length_le (h : List ℚ) (x : ℚ)
    (hh : h.length ≤ BPM_HISTORY_SIZE) :
    (dequeAppend h x).length ≤ BPM_HISTORY_SIZE := by
  rw [dequeAppend]
  split
  · next hgt =>
    have hh5 : h.length ≤ 5 := hh
    have hgt5 : 5 < (h ++ [x]).length := hgt
    rw [List.length_append] at hgt5
    show (h ++ [x]).tail.length ≤ 5
    rw [List.length_tail, List.length_append]
    simp only [List.length_singleton] at hgt5 ⊢
    omega
  · next hle =>
    exact not_lt.mp hle

theorem dequeAppend_ne_nil (h : List ℚ) (x : ℚ) : dequeAppend h x ≠ [] := by
  have hlen : 0 < (dequeAppend h x).length := by
    rw [dequeAppend]
    split
    · next hgt =>
      have h5 : 5 < (h ++ [x]).length := hgt
      rw [List.length_tail]
      omega
    · rw [List.length_append]
      simp
  exact List.length_pos.mp hlen

theorem dequeAppend_mem {h : List ℚ} {x y : ℚ} (hy : y ∈ dequeAppend h x) :
    y ∈ h ∨ y = x := by
  rw [dequeAppend] at hy
  have hsub : y ∈ h ++ [x] := by
    split at hy
    · exact List.tail_subset _ hy
    · exact hy
  rcases List.mem_append.mp hsub with h1 | h1
  · exact Or.inl h1
  · exact Or.inr (List.mem_singleton.mp h1)

/-- `histInv` holds initially. -/
theorem histInv_init : histInv initSt := by
  refine ⟨by simp [initSt, BPM_HISTORY_SIZE], by simp [initSt], ?_, ?_⟩
  · intro h
    simp [initSt] at h
  · intro v hv
    simp [initSt] at hv

/-- `histInv` is preserved by every detector step. -/
theorem histInv_step (s : DetectorSt) (i : Chunk) (h : histInv s) :
    histInv (step s i) := by
  obtain ⟨hlen, hall, hmed, hrange⟩ := h
  rcases hss : s.state with _ | _ | _ | _
  · cases hi : i.is_sound
    · rw [step_waiting_silent s i hss hi]
      exact ⟨hlen, hall, hmed, hrange⟩
    · rw [step_waiting_sound s i hss hi]
      exact ⟨hlen, hall, hmed, hrange⟩
  · cases hi : i.is_sound
    · rcases h0 : s.silence_start_time with _ | t0
      · rw [step_listening_silent_start s i hss hi h0]
        exact ⟨hlen, hall, hmed, hrange⟩
      · by_cases hd : SILENCE_DURATION ≤ i.time - t0
        · rw [step_listening_silent_timeout s i t0 hss hi h0 hd]
          exact ⟨hlen, hall, hmed, hrange⟩
        · rw [step_listening_silent_short s i t0 hss hi h0 hd]
          exact ⟨hlen, hall, hmed, hrange⟩
    · rcases ht : i.tempo with _ | t
      · rw [step_listening_sound_err s i hss hi ht]
        exact ⟨hlen, hall, hmed, hrange⟩
      · by_cases hr : 40 < t ∧ t < 250
        · by_cases hg : (BPM_LISTEN_DURATION : ℚ) ≤
              listenElapsed s.music_start_time i.time ∧
              buffer_size ≤ (s.audio_buffer ++ i.samples).length
          · rw [step_listening_sound_accept s i t hss hi hg ht hr]
            have hall2 : ∀ x ∈ dequeAppend s.bpm_history t, 40 < x ∧ x < 250 := by
              intro x hx
              rcases dequeAppend_mem hx with hmem | hEq
              · exact hall x hmem
              · rw [hEq]
                exact hr
            refine ⟨dequeAppend_length_le _ _ hlen, hall2, fun _ => rfl, ?_⟩
            intro v hv
            have hv2 : v = npMedian (dequeAppend s.bpm_history t) := by
              simpa using hv.symm
            rw [hv2]
            exact npMedian_mem_range (dequeAppend_ne_nil _ _) hall2
          · rw [step_listening_sound_gated s i hss hi hg]
            exact ⟨hlen, hall, hmed, hrange⟩
        · rw [step_listening_sound_reject s i t hss hi ht hr]
          exact ⟨hlen, hall, hmed, hrange⟩
  · cases hi : i.is_sound
    · rcases h0 : s.silence_start_time with _ | t0
      · rw [step_ready_silent_start s i hss hi h0]
        exact ⟨hlen, hall, hmed, hrange⟩
      · by_cases hd : SILENCE_DURATION ≤ i.time - t0
        · rw [step_ready_silent_timeout s i t0 hss hi h0 hd]
          exact ⟨hlen, hall, hmed, hrange⟩
        · rw [step_ready_silent_short s i t0 hss hi h0 hd]
          exact ⟨hlen, hall, hmed, hrange⟩
    · rw [step_ready_sound s i hss hi]
      exact ⟨hlen, hall, hmed, hrange⟩
  · cases hi : i.is_sound
    · rw [step_silent_silent s i hss hi]
      exact ⟨hlen, hall, hmed, hrange⟩
    · rw [step_silent_sound s i hss hi]
      refine ⟨by simp [BPM_HISTORY_SIZE], by simp, ?_, hrange⟩
      intro hcon
      simp at hcon

/-- `histInv` is preserved by any run continuation. -/
theorem histInv_runFrom (trace : List Chunk) (s : DetectorSt)
    (h : histInv s) : histInv (runFrom s trace) := by
  induction trace generalizing s with
  | nil => exact h
  | cons c rest ih => exact ih (step s c) (histInv_step s c h)

/-- `histInv` holds in every reachable detector state. -/
theorem histInv_run (trace : List Chunk) : histInv (run trace) :=
  histInv_runFrom trace initSt histInv_init

/-- Running a concatenated trace is running the pieces in order. -/
theorem run_append (t1 t2 : List Chunk) :
    run (t1 ++ t2) = runFrom (run t1) t2 := by
  rw [run, run, runFrom, runFrom, runFrom, List.foldl_append]

/-- The published BPM is never reset: once `current_bpm` is set, every
step keeps it set. -/
theorem step_bpm_isSome (s : DetectorSt) (i : Chunk)
    (h : s.current_bpm ≠ none) : (step s i).current_bpm ≠ none := by
  rcases hss : s.state with _ | _ | _ | _
  · cases hi : i.is_sound
    · rw [step_waiting_silent s i hss hi]
      exact h
    · rw [step_waiting_sound s i hss hi]
      exact h
  · cases hi : i.is_sound
    · rcases h0 : s.silence_start_time with _ | t0
      · rw [step_listening_silent_start s i hss hi h0]
        exact h
      · by_cases hd : SILENCE_DURATION ≤ i.time - t0
        · rw [step_listening_silent_timeout s i t0 hss hi h0 hd]
          exact h
        · rw [step_listening_silent_short s i t0 hss hi h0 hd]
          exact h
    · rcases ht : i.tempo with _ | t
      · rw [step_listening_sound_err s i hss hi ht]
        exact h
      · by_cases hr : 40 < t ∧ t < 250
        · by_cases hg : (BPM_LISTEN_DURATION : ℚ) ≤
              listenElapsed s.music_start_time i.time ∧
              buffer_size ≤ (s.audio_buffer ++ i.samples).length
          · rw [step_listening_sound_accept s i t hss hi hg ht hr]
            simp
          · rw [step_listening_sound_gated s i hss hi hg]
            exact h
        · rw [step_listening_sound_reject s i t hss hi ht hr]
          exact h
  · cases hi : i.is_sound
    · rcases h0 : s.silence_start_time with _ | t0
      · rw [step_ready_silent_start s i hss hi h0]
        exact h
      · by_cases hd : SILENCE_DURATION ≤ i.time - t0
        · rw [step_ready_silent_timeout s i t0 hss hi h0 hd]
          exact h
        · rw [step_ready_silent_short s i t0 hss hi h0 hd]
          exact h
    · rw [step_ready_sound s i hss hi]
      exact h
  · cases hi : i.is_sound
    · rw [step_silent_silent s i hss hi]
      exact h
    · rw [step_silent_sound s i hss hi]
      exact h

/-- `current_bpm` stays set over any continuation of the run. -/
theorem runFrom_bpm_isSome (ext : List Chunk) (s : DetectorSt)
    (h : s.current_bpm ≠ none) : (runFrom s ext).current_bpm ≠ none := by
  induction ext generalizing s with
  | nil => exact h
  | cons c rest ih => exact ih (step s c) (step_bpm_isSome s c h)

/-- Counterexample to C2 as stated: after music (tempo 120 accepted), two
seconds of silence and a new sound chunk, the detector has cleared its
tempo history but still publishes 120, so the published BPM is not the
median of the history's (empty) current contents. -/
theorem claim_C2_counterexample :
    get_bpm (run ceTrace) = some 120 ∧
    (run ceTrace).bpm_history = [] ∧
    npMedianOpt (run ceTrace).bpm_history = none ∧
    get_bpm (run ceTrace) ≠ npMedianOpt (run ceTrace).bpm_history := by
  rw [run_ce_eq]
  refine ⟨rfl, rfl, rfl, ?_⟩
  intro hcon
  simp [get_bpm, staleSt, npMedianOpt] at hcon

/-- C2 amended: in every reachable state the tempo history holds at most 5
estimates, and the published BPM equals the median of the history's current
contents whenever the history is nonempty (after the history-clearing step
the history is empty and the published BPM retains its previous value). -/
theorem claim_C2_amended (trace : List Chunk) :
    (run trace).bpm_history.length ≤ BPM_HISTORY_SIZE ∧
    ((run trace).bpm_history ≠ [] →
      get_bpm (run trace) = npMedianOpt (run trace).bpm_history) := by
  have h := histInv_run trace
  refine ⟨h.1, fun hne => ?_⟩
  rw [get_bpm, h.2.2.1 hne, npMedianOpt, if_neg hne]

/-- Witness for C2 amended: after the trace that reaches Ready at 120 BPM
the history is `[120]` and the published BPM is its median. -/
theorem claim_C2_witness :
    (run pairTrace).bpm_history.length ≤ BPM_HISTORY_SIZE ∧
    get_bpm (run pairTrace) = npMedianOpt (run pairTrace).bpm_history := by
  have h := claim_C2_amended pairTrace
  refine ⟨h.1, h.2 ?_⟩
  rw [run_pair_eq]
  simp [readySt]

/-- C9: once the detector has published a BPM, no later chunk resets it to
`None` — `get_bpm` keeps returning a value over every continuation of the
run, including the history-clearing Silent-to-Listening transition — and
every published value lies strictly between 40 and 250. -/
theorem claim_C9 (trace ext : List Chunk)
    (h : get_bpm (run trace) ≠ none) :
    get_bpm (runFrom (run trace) ext) ≠ none ∧
    (∀ v, get_bpm (runFrom (run trace) ext) = some v → 40 < v ∧ v < 250) := by
  constructor
  · exact runFrom_bpm_isSome ext (run trace) h
  · intro v hv
    have hinv := histInv_runFrom ext (run trace) (histInv_run trace)
    exact hinv.2.2.2 v hv

/-- Witness for C9: after reaching Ready at 120 BPM, running the silence
and new-music chunks (which clear the history) still leaves `get_bpm`
returning a value in range. -/
theorem claim_C9_witness :
    get_bpm (runFrom (run pairTrace)
      [silenceChunk1, silenceChunk2, soundChunk2]) ≠ none ∧
    (∀ v, get_bpm (runFrom (run pairTrace)
      [silenceChunk1, silenceChunk2, soundChunk2]) = some v →
      40 < v ∧ v < 250) := by
  have h := claim_C9 pairTrace [silenceChunk1, silenceChunk2, soundChunk2] ?_
  · exact h
  · rw [run_pair_eq]
    simp [get_bpm, readySt]

/-- C10: whenever `can_dance()` holds in a reachable state, the published
BPM is present and strictly above 40, so `beat_duration = 60 / bpm` and
`move_duration = beat_duration / 2` are well-defined positive values — the
division never sees a zero divisor. -/
theorem claim_C10 (trace : List Chunk)
    (h : can_dance (run trace) = true) :
    ∃ v, get_bpm (run trace) = some v ∧ 40 < v ∧ v ≠ 0 ∧
      beat_duration v = 60 / v ∧ move_duration v = beat_duration v / 2 ∧
      0 < beat_duration v ∧ 0 < move_duration v := by
  have hsome : (run trace).current_bpm.isSome = true := by
    rw [can_dance, Bool.and_eq_true] at h
    exact h.2
  obtain ⟨v, hv⟩ := Option.isSome_iff_exists.mp hsome
  have hinv := histInv_run trace
  have hr := hinv.2.2.2 v hv
  have hv0 : (0 : ℚ) < v := lt_trans (by norm_num) hr.1
  have hbd : 0 < beat_duration v := by
    rw [beat_duration]
    positivity
  refine ⟨v, hv, hr.1, ne_of_gt hv0, rfl, rfl, hbd, ?_⟩
  rw [move_duration]
  positivity

/-- Witness for C10: the concrete trace reaching Ready at 120 BPM can
dance, with `beat_duration = 1/2` s and `move_duration = 1/4` s. -/
theorem claim_C10_witness :
    ∃ v, get_bpm (run pairTrace) = some v ∧ 40 < v ∧ v ≠ 0 ∧
      beat_duration v = 60 / v ∧ move_duration v = beat_duration v / 2 ∧
      0 < beat_duration v ∧ 0 < move_duration v := by
  refine claim_C10 pairTrace ?_
  rw [run_pair_eq]
  rfl

/-- In Listening, a sound chunk whose estimate is the rejected boundary 40
extends the buffer by a full chunk and leaves the state Listening — no
bound is applied on this path. -/
theorem step_grow (s : DetectorSt) (hs : s.state = .listening) :
    (step s growChunk).state = .listening ∧
    (step s growChunk).audio_buffer.length =
      s.audio_buffer.length + CHUNK_SIZE := by
  rw [step_listening_sound_reject s growChunk 40 hs rfl rfl (by norm_num)]
  constructor
  · exact hs
  · simp only [growChunk, List.length_append, List.length_replicate]

/-- Iterating `growChunk` from any Listening state grows the buffer by one
chunk per step without bound. -/
theorem grow_iter (n : Nat) :
    ∀ s : DetectorSt, s.state = .listening →
    (runFrom s (List.replicate n growChunk)).state = .listening ∧
    (runFrom s (List.replicate n growChunk)).audio_buffer.length =
      s.audio_buffer.length + n * CHUNK_SIZE := by
  induction n with
  | zero =>
    intro s hs
    simp [runFrom, hs]
  | succ m ih =>
    intro s hs
    have hstep := step_grow s hs
    have hrec := ih (step s growChunk) hstep.1
    have hfold : runFrom s (List.replicate (m + 1) growChunk)
        = runFrom (step s growChunk) (List.replicate m growChunk) := by
      rw [List.replicate_succ]
      rfl
    rw [hfold]
    refine ⟨hrec.1, ?_⟩
    rw [hrec.2, hstep.2, Nat.succ_mul]
    omega

/-- Counterexample to C4 as stated: 217 sound chunks whose estimates are
all rejected leave the detector in Listening with an accumulation buffer of
444416 samples — beyond the claimed bound of `2 * RATE *
BPM_LISTEN_DURATION = 441000`. -/
theorem claim_C4_counterexample :
    (run overflowTrace).state = .listening ∧
    buffer_size * 2 < (run overflowTrace).audio_buffer.length := by
  have h1 : step initSt smallSeedChunk =
      { initSt with
          state := .listening,
          music_start_time := some 1,
          audio_buffer := List.replicate CHUNK_SIZE 0,
          silence_start_time := none } := by
    rw [step_waiting_sound initSt smallSeedChunk rfl rfl]
    rfl
  have hfold : run overflowTrace
      = runFrom (step initSt smallSeedChunk) (List.replicate 216 growChunk) :=
    rfl
  have hg := grow_iter 216 (step initSt smallSeedChunk) (by rw [h1])
  rw [hfold]
  refine ⟨hg.1, ?_⟩
  rw [hg.2, h1]
  norm_num [List.length_replicate, buffer_size, CHUNK_SIZE, RATE,
    BPM_LISTEN_DURATION]

/-- C4 amended: the bound applies to the Ready-state appends — after any
sound chunk processed in Ready the buffer holds at most
`2 * RATE * BPM_LISTEN_DURATION` samples, and when the extended buffer
exceeds that bound it is truncated from the front to its most recent
`RATE * BPM_LISTEN_DURATION` samples — and the buffer is cleared on the
Listening-to-Waiting silence timeout.  (In Listening the buffer is not
bounded; see the counterexample.) -/
theorem claim_C4_amended (s : DetectorSt) (i : Chunk) :
    (s.state = .ready → i.is_sound = true →
      ((step s i).audio_buffer.length ≤ buffer_size * 2 ∧
       (buffer_size * 2 < (s.audio_buffer ++ i.samples).length →
         (step s i).audio_buffer =
           (s.audio_buffer ++ i.samples).drop
             ((s.audio_buffer ++ i.samples).length - buffer_size)))) ∧
    (s.state = .listening → silenceTimedOut s i →
      (step s i).audio_buffer = []) := by
  constructor
  · intro hs hi
    rw [step_ready_sound s i hs hi]
    constructor
    · show (if buffer_size * 2 < (s.audio_buffer ++ i.samples).length
          then (s.audio_buffer ++ i.samples).drop
            ((s.audio_buffer ++ i.samples).length - buffer_size)
          else s.audio_buffer ++ i.samples).length ≤ buffer_size * 2
      split
      · next hover =>
        rw [List.length_drop]
        omega
      · next hnot =>
        exact not_lt.mp hnot
    · intro hover
      show (if buffer_size * 2 < (s.audio_buffer ++ i.samples).length
          then (s.audio_buffer ++ i.samples).drop
            ((s.audio_buffer ++ i.samples).length - buffer_size)
          else s.audio_buffer ++ i.samples) =
        (s.audio_buffer ++ i.samples).drop
          ((s.audio_buffer ++ i.samples).length - buffer_size)
      rw [if_pos hover]
  · intro hs hto
    obtain ⟨hi, t0, h0, hd⟩ := hto
    rw [step_listening_silent_timeout s i t0 hs hi h0 hd]

/-- Witness for C4 amended: a Ready state whose buffer already fills the
whole bound gets truncated to its most recent window by the next sound
chunk, and the concrete Listening-state silence timeout empties the
buffer. -/
theorem claim_C4_witness :
    ((step hugeReadySt sndChunk).audio_buffer.length ≤ buffer_size * 2 ∧
     (step hugeReadySt sndChunk).audio_buffer =
       (hugeReadySt.audio_buffer ++ sndChunk.samples).drop
         ((hugeReadySt.audio_buffer ++ sndChunk.samples).length -
           buffer_size)) ∧
    (step lisTimerSt silTimeoutChunk).audio_buffer = [] := by
  have h1 := (claim_C4_amended hugeReadySt sndChunk).1 rfl rfl
  have hover : buffer_size * 2 <
      (hugeReadySt.audio_buffer ++ sndChunk.samples).length := by
    show buffer_size * 2 <
      (List.replicate (buffer_size * 2) (0 : ℚ) ++ [(3 : ℚ)]).length
    rw [List.length_append, List.length_replicate, List.length_singleton]
    omega
  have h2 := (claim_C4_amended lisTimerSt silTimeoutChunk).2 rfl
    ⟨rfl, 3, rfl, by norm_num [SILENCE_DURATION, silTimeoutChunk]⟩
  exact ⟨⟨h1.1, h1.2 hover⟩, h2⟩

end BpmHeadbang
